import Mathlib

/-!
Verification development for the `polyfjord3d-win` repository
(`src/main.rs`, `src/modify_path.rs`): a Windows command-line orchestrator
that resolves external photogrammetry tools (ffmpeg, COLMAP, GLOMAP) and
runs a per-video reconstruction pipeline.

The Rust code is shallowly embedded: OS strings are byte lists, paths are
lists of components, filesystem existence is a set (list) of paths supplied
as part of an oracle environment, subprocess and network outcomes are
oracle values, and every side effect the code performs is recorded in an
explicit trace so that "performs no X" claims are statements about traces.
-/

set_option autoImplicit false

/-- An OS string (Rust `OsStr`), modelled as its list of bytes. -/
abbrev OsStr := List Nat

/-- A filesystem path, modelled as its list of normalized components
(Rust `Path`, after `components()` normalization); relative or rooted at an
implicit common root. -/
abbrev RPath := List OsStr

/-- UTF-8 encoding of a single character (the standard encoding; used to
write byte-level components from Lean string literals). -/
def charUtf8 (c : Char) : List Nat :=
  let n := c.toNat
  if n < 0x80 then [n]
  else if n < 0x800 then [0xC0 + n / 64, 0x80 + n % 64]
  else if n < 0x10000 then [0xE0 + n / 4096, 0x80 + (n / 64) % 64, 0x80 + n % 64]
  else [0xF0 + n / 262144, 0x80 + (n / 4096) % 64, 0x80 + (n / 64) % 64, 0x80 + n % 64]

/-- The UTF-8 bytes of a Lean string, as an `OsStr`. -/
def strBytes (s : String) : OsStr :=
  s.data.flatMap charUtf8

/-- The two reconstruction tools (`enum Tool` in `src/main.rs`). -/
inductive Tool
  | colmap
  | glomap
  deriving DecidableEq, Repr

/-- `find_executable` from `src/main.rs` (lines 214-225): check
`dir/<name>.exe`, then `dir/bin/<name>.exe`, against the set `fs` of
existing paths; return the first hit. -/
def find_executable (fs : List RPath) (dir : RPath) (name : String) : Option RPath :=
  let exe_name := strBytes (name ++ ".exe")
  let primary_path := dir ++ [exe_name]
  if primary_path ∈ fs then some primary_path
  else
    let bin_path := dir ++ [strBytes "bin", exe_name]
    if bin_path ∈ fs then some bin_path
    else none

/-- Observable side effects of a dependency resolution
(`check_dependency` and its callees in `src/main.rs`). -/
inductive DepEffect
  /-- `which::which(name)`: a search of the system executable search path. -/
  | whichSearch (name : String)
  /-- `fs::create_dir_all(p)`. -/
  | createDir (p : RPath)
  /-- `find_executable(dir, name)`: a lookup in the install directory. -/
  | findExe (dir : RPath)
  /-- `prompt_and_download_tool`: network fetch / interactive install. -/
  | network
  deriving DecidableEq, Repr

/-- Oracle environment for one `check_dependency` call: the filesystem
(existing paths), the result of the system-path search, the per-user data
directory, and the outcome of the download-and-install branch (which is
modelled in detail separately, by `prompt_and_download_tool`). -/
structure DepEnv where
  fs : List RPath
  whichRes : Option RPath
  dataLocalDir : Option RPath
  downloadRes : Except String RPath
  deriving Repr

/-- `check_dependency` from `src/main.rs` (lines 227-267), with
`get_install_dir` (lines 143-151) inlined at its call site (line 250).
Returns the result (`Ok((path, freshly_installed))` or `Err`) together
with the trace of effects performed, in program order. -/
def check_dependency (name : String) (arg_path : Option RPath)
    (install_dir_name : String) (env : DepEnv) :
    Except String (RPath × Bool) × List DepEffect :=
  match arg_path with
  | some path =>
    if path ∈ env.fs then
      (.ok (path, false), [])
    else
      (.error ("Provided path for " ++ name ++ " does not exist"), [])
  | none =>
    match env.whichRes with
    | some path => (.ok (path, false), [.whichSearch name])
    | none =>
      -- get_install_dir(): data_local_dir().join("polyfjord3d"), created if absent
      match env.dataLocalDir with
      | none => (.error "Failed to get local data directory", [.whichSearch name])
      | some d =>
        let base := d ++ [strBytes "polyfjord3d"]
        let e1 : List DepEffect := if base ∈ env.fs then [] else [.createDir base]
        let install_dir := base ++ [strBytes install_dir_name]
        let e2 : List DepEffect := if install_dir ∈ env.fs then [] else [.createDir install_dir]
        let pre := [DepEffect.whichSearch name] ++ e1 ++ e2
        match find_executable env.fs install_dir name with
        | some path => (.ok (path, false), pre ++ [.findExe install_dir])
        | none =>
          match env.downloadRes with
          | .ok path => (.ok (path, true), pre ++ [.findExe install_dir, .network])
          | .error m => (.error m, pre ++ [.findExe install_dir, .network])

/-- Claim C2: with an explicit override path, resolution returns exactly that
path with `freshlyInstalled = false` and performs no effects at all (no
system-path search, no install-directory lookup, no network) when the path
exists; when it does not exist it fails immediately, again with no effects,
so no later fallback stage is attempted. -/
theorem check_dependency_explicit_override (name idn : String) (p : RPath) (env : DepEnv) :
    check_dependency name (some p) idn env =
      (if p ∈ env.fs then .ok (p, false)
       else .error ("Provided path for " ++ name ++ " does not exist"), []) := by
  by_cases h : p ∈ env.fs <;> simp [check_dependency, h]

/-- Claim C5: whenever a dependency resolution succeeds, the returned
`freshlyInstalled` flag is `true` if and only if the run's effect trace
contains the download-and-install step, i.e. the ordered fallback search
reached the download branch; every earlier success (explicit override,
system search path, prior install directory) yields `false`. -/
theorem check_dependency_fresh_iff_download (name idn : String) (ap : Option RPath)
    (env : DepEnv) (p : RPath) (b : Bool)
    (h : (check_dependency name ap idn env).1 = .ok (p, b)) :
    b = true ↔ DepEffect.network ∈ (check_dependency name ap idn env).2 := by
  cases ap with
  | some q =>
    by_cases hq : q ∈ env.fs <;> simp [check_dependency, hq] at h ⊢
    exact h.2
  | none =>
    cases hw : env.whichRes with
    | some q => simp [check_dependency, hw] at h ⊢; exact h.2
    | none =>
      cases hd : env.dataLocalDir with
      | none => simp [check_dependency, hw, hd] at h
      | some d =>
        simp only [check_dependency, hw, hd] at h ⊢
        rcases hfe : find_executable env.fs ((d ++ [strBytes "polyfjord3d"]) ++ [strBytes idn]) name with _ | q
        · rw [hfe] at h
          cases hdl : env.downloadRes with
          | ok r =>
            rw [hdl] at h
            simp at h ⊢
            exact h.2
          | error m =>
            rw [hdl] at h
            simp at h
        · rw [hfe] at h
          simp at h
          obtain ⟨h1, h2⟩ := h
          subst h2
          simp

/-- Witness for `check_dependency_fresh_iff_download`: a resolution that
reaches the download branch and returns `freshlyInstalled = true`. -/
theorem check_dependency_fresh_iff_download_witness :
    (check_dependency "ffmpeg" none "ffmpeg" ⟨[], none, some [], .ok [strBytes "f"]⟩).1
        = .ok ([strBytes "f"], true) ∧
      (true = true ↔ DepEffect.network ∈
        (check_dependency "ffmpeg" none "ffmpeg" ⟨[], none, some [], .ok [strBytes "f"]⟩).2) :=
  ⟨rfl, check_dependency_fresh_iff_download "ffmpeg" "ffmpeg" none
      ⟨[], none, some [], .ok [strBytes "f"]⟩ [strBytes "f"] true rfl⟩

/-- Claim C10: when no explicit override is given and the system-path search
fails, resolution creates (if absent) the per-user application data
directory and the per-tool install directory, and does so before the
install-directory search; the trace is fixed up to the arbitrary tail that
follows the search, so these creation effects occur even when the
executable is then found installed, and remain even when the download or
install verification afterwards fails. -/
theorem check_dependency_creates_dirs (name idn : String) (env : DepEnv) (d : RPath)
    (hw : env.whichRes = none) (hd : env.dataLocalDir = some d) :
    ∃ tail,
      (check_dependency name none idn env).2 =
        [DepEffect.whichSearch name]
          ++ (if d ++ [strBytes "polyfjord3d"] ∈ env.fs then []
              else [DepEffect.createDir (d ++ [strBytes "polyfjord3d"])])
          ++ (if (d ++ [strBytes "polyfjord3d"]) ++ [strBytes idn] ∈ env.fs then []
              else [DepEffect.createDir ((d ++ [strBytes "polyfjord3d"]) ++ [strBytes idn])])
          ++ (DepEffect.findExe ((d ++ [strBytes "polyfjord3d"]) ++ [strBytes idn]) :: tail) := by
  simp only [check_dependency, hw, hd]
  rcases find_executable env.fs ((d ++ [strBytes "polyfjord3d"]) ++ [strBytes idn]) name with _ | q
  · cases env.downloadRes with
    | ok r => exact ⟨[DepEffect.network], by simp⟩
    | error m => exact ⟨[DepEffect.network], by simp⟩
  · exact ⟨[], by simp⟩

/-- Witness for `check_dependency_creates_dirs`: a concrete resolution with
an empty filesystem and a failing download still records both directory
creations before the install-directory search. -/
theorem check_dependency_creates_dirs_witness :
    ∃ tail,
      (check_dependency "colmap" none "colmap" ⟨[], none, some [[117]], .error "x"⟩).2 =
        [DepEffect.whichSearch "colmap"]
          ++ (if [[117]] ++ [strBytes "polyfjord3d"] ∈
                (⟨[], none, some [[117]], .error "x"⟩ : DepEnv).fs then []
              else [DepEffect.createDir ([[117]] ++ [strBytes "polyfjord3d"])])
          ++ (if ([[117]] ++ [strBytes "polyfjord3d"]) ++ [strBytes "colmap"] ∈
                (⟨[], none, some [[117]], .error "x"⟩ : DepEnv).fs then []
              else [DepEffect.createDir (([[117]] ++ [strBytes "polyfjord3d"]) ++ [strBytes "colmap"])])
          ++ (DepEffect.findExe (([[117]] ++ [strBytes "polyfjord3d"]) ++ [strBytes "colmap"]) :: tail) :=
  check_dependency_creates_dirs "colmap" "colmap" ⟨[], none, some [[117]], .error "x"⟩ [[117]] rfl rfl

/-- Rust `Path::file_name` on the normalized component list: the last
component, unless the path is empty or ends in `..` (or is the lone `.`
component), in which case there is no file name. -/
def file_name (p : RPath) : Option OsStr :=
  match p.getLast? with
  | none => none
  | some c => if c = strBytes ".." ∨ c = strBytes "." then none else some c

/-- Index of the last `.` (byte 46) in an OS string, if any. -/
def last_dot_index (c : OsStr) : Option Nat :=
  ((List.range c.length).filter (fun i => c.getD i 0 = 46)).getLast?

/-- Rust `Path::file_stem`: the file name up to (but excluding) its final
`.`; the whole name when there is no dot or when the only leading dot is at
position 0. -/
def file_stem (p : RPath) : Option OsStr :=
  (file_name p).map (fun c =>
    match last_dot_index c with
    | none => c
    | some 0 => c
    | some i => c.take i)

/-- Whether a continuation byte of a UTF-8 sequence is well-formed. -/
def utf8Cont (b : Nat) : Bool :=
  0x80 ≤ b && b ≤ 0xBF

/-- UTF-8 validity of a byte sequence (the condition under which Rust
`OsStr::to_str` returns `Some`). -/
def isValidUtf8 : List Nat → Bool
  | [] => true
  | b :: rest =>
    if b ≤ 0x7F then isValidUtf8 rest
    else if 0xC2 ≤ b && b ≤ 0xDF then
      match rest with
      | b2 :: r => utf8Cont b2 && isValidUtf8 r
      | [] => false
    else if b = 0xE0 then
      match rest with
      | b2 :: b3 :: r => (0xA0 ≤ b2 && b2 ≤ 0xBF) && utf8Cont b3 && isValidUtf8 r
      | _ => false
    else if (0xE1 ≤ b && b ≤ 0xEC) || b = 0xEE || b = 0xEF then
      match rest with
      | b2 :: b3 :: r => utf8Cont b2 && utf8Cont b3 && isValidUtf8 r
      | _ => false
    else if b = 0xED then
      match rest with
      | b2 :: b3 :: r => (0x80 ≤ b2 && b2 ≤ 0x9F) && utf8Cont b3 && isValidUtf8 r
      | _ => false
    else if b = 0xF0 then
      match rest with
      | b2 :: b3 :: b4 :: r => (0x90 ≤ b2 && b2 ≤ 0xBF) && utf8Cont b3 && utf8Cont b4 && isValidUtf8 r
      | _ => false
    else if 0xF1 ≤ b && b ≤ 0xF3 then
      match rest with
      | b2 :: b3 :: b4 :: r => utf8Cont b2 && utf8Cont b3 && utf8Cont b4 && isValidUtf8 r
      | _ => false
    else if b = 0xF4 then
      match rest with
      | b2 :: b3 :: b4 :: r => (0x80 ≤ b2 && b2 ≤ 0x8F) && utf8Cont b3 && utf8Cont b4 && isValidUtf8 r
      | _ => false
    else false

/-- Rust `OsStr::to_str`: `Some` of the same bytes (a `&str` is a view of
the identical byte sequence) exactly when they are valid UTF-8. -/
def os_to_str (c : OsStr) : Option OsStr :=
  if isValidUtf8 c then some c else none

/-- One argument of a subprocess invocation: a fixed string literal from
the source, or a constructed path. -/
inductive Arg
  | lit (s : String)
  | path (p : RPath)
  deriving DecidableEq, Repr

/-- A subprocess invocation: executable plus arguments in order. -/
structure Cmd where
  exe : RPath
  args : List Arg
  deriving DecidableEq, Repr

/-- Observable side effects of one `process_video` run. -/
inductive PvEffect
  /-- `fs::remove_dir_all(p)`. -/
  | removeDirAll (p : RPath)
  /-- `fs::create_dir_all(p)`. -/
  | createDirAll (p : RPath)
  /-- `run_command`: a subprocess invocation. -/
  | runCmd (c : Cmd)
  deriving DecidableEq, Repr

/-- Oracle environment for one `process_video` run: filesystem checks and
the outcomes of the fallible operations, in program order. -/
structure PvEnv where
  /-- `scene_dir.exists()` at entry. -/
  sceneDirExists : Bool
  /-- Outcome of `fs::remove_dir_all(&scene_dir)` (force path). -/
  rmRes : Except String Unit
  /-- Outcome of `fs::create_dir_all(&images_dir)`. -/
  mkImagesRes : Except String Unit
  /-- Outcome of `fs::create_dir_all(&sparse_dir)`. -/
  mkSparseRes : Except String Unit
  /-- Outcomes of the successive `run_command` calls. -/
  cmdResults : List (Except String Unit)
  /-- `num_cpus::get()`. -/
  numCpus : Nat
  /-- `model_path.exists()` after the mapper ran. -/
  modelExists : Bool
  deriving Repr

/-- Outcome of the `i`-th `run_command` call of one `process_video` run
(`Ok`, or the `Err` produced by a non-zero exit status or a failed
launch); entries beyond the oracle list default to success. -/
def cmdRes (env : PvEnv) (i : Nat) : Except String Unit :=
  env.cmdResults.getD i (.ok ())

/-- The body of `process_video` (`src/main.rs` lines 307-425), entered
after the two `unwrap`s on the video file stem succeeded; `video_name` is
the (UTF-8 valid) stem. Returns the per-video result and the trace of
filesystem and subprocess effects in program order. -/
def process_video_body (video_name : OsStr)
    (video_path scenes_dir ffmpeg_path tool_path colmap_path : RPath)
    (tool : Tool) (force : Bool) (env : PvEnv) :
    Except String Unit × List PvEffect :=
  let scene_dir := scenes_dir ++ [video_name]
  let images_dir := scene_dir ++ [strBytes "images"]
  let sparse_dir := scene_dir ++ [strBytes "sparse"]
  if env.sceneDirExists && !force then
    (.ok (), [])
  else
    let rmEffs : List PvEffect := if env.sceneDirExists then [.removeDirAll scene_dir] else []
    match (if env.sceneDirExists then env.rmRes else .ok ()) with
    | .error e => (.error e, rmEffs)
    | .ok _ =>
    match env.mkImagesRes with
    | .error e => (.error e, rmEffs ++ [.createDirAll images_dir])
    | .ok _ =>
    match env.mkSparseRes with
    | .error e => (.error e, rmEffs ++ [.createDirAll images_dir, .createDirAll sparse_dir])
    | .ok _ =>
    let pre := rmEffs ++ [PvEffect.createDirAll images_dir, PvEffect.createDirAll sparse_dir]
    let db_path := scene_dir ++ [strBytes "database.db"]
    let ffmpeg_cmd : Cmd := ⟨ffmpeg_path,
      [.lit "-i", .path video_path, .lit "-qscale:v", .lit "2",
       .path (images_dir ++ [strBytes "frame_%06d.jpg"])]⟩
    match cmdRes env 0 with
    | .error e => (.error e, pre ++ [.runCmd ffmpeg_cmd])
    | .ok _ =>
    let feat_cmd : Cmd := ⟨colmap_path,
      [.lit "feature_extractor", .lit "--database_path", .path db_path,
       .lit "--image_path", .path images_dir,
       .lit "--ImageReader.single_camera", .lit "1",
       .lit "--SiftExtraction.use_gpu", .lit "1",
       .lit "--SiftExtraction.max_image_size", .lit "4096"]⟩
    match cmdRes env 1 with
    | .error e => (.error e, pre ++ [.runCmd ffmpeg_cmd, .runCmd feat_cmd])
    | .ok _ =>
    let match_cmd : Cmd := ⟨colmap_path,
      [.lit "sequential_matcher", .lit "--database_path", .path db_path,
       .lit "--SequentialMatching.overlap", .lit "15"]⟩
    match cmdRes env 2 with
    | .error e => (.error e, pre ++ [.runCmd ffmpeg_cmd, .runCmd feat_cmd, .runCmd match_cmd])
    | .ok _ =>
    let mapper_cmd : Cmd := ⟨tool_path,
      [.lit "mapper", .lit "--database_path", .path db_path,
       .lit "--image_path", .path images_dir, .lit "--output_path", .path sparse_dir]
        ++ (match tool with
            | .colmap => [.lit "--Mapper.num_threads", .lit (toString env.numCpus)]
            | .glomap => [])⟩
    let steps := pre ++ [PvEffect.runCmd ffmpeg_cmd, .runCmd feat_cmd, .runCmd match_cmd,
      .runCmd mapper_cmd]
    match cmdRes env 3 with
    | .error e => (.error e, steps)
    | .ok _ =>
    let model_path := sparse_dir ++ [strBytes "0"]
    if env.modelExists then
      let conv_final : Cmd := ⟨colmap_path,
        [.lit "model_converter", .lit "--input_path", .path model_path,
         .lit "--output_path", .path sparse_dir, .lit "--output_type", .lit "TXT"]⟩
      match tool with
      | .glomap =>
        let conv_self : Cmd := ⟨colmap_path,
          [.lit "model_converter", .lit "--input_path", .path model_path,
           .lit "--output_path", .path model_path, .lit "--output_type", .lit "TXT"]⟩
        match cmdRes env 4 with
        | .error e => (.error e, steps ++ [.runCmd conv_self])
        | .ok _ =>
          match cmdRes env 5 with
          | .error e => (.error e, steps ++ [.runCmd conv_self, .runCmd conv_final])
          | .ok _ => (.ok (), steps ++ [.runCmd conv_self, .runCmd conv_final])
      | .colmap =>
        match cmdRes env 4 with
        | .error e => (.error e, steps ++ [.runCmd conv_final])
        | .ok _ => (.ok (), steps ++ [.runCmd conv_final])
    else (.ok (), steps)

/-- `process_video` (`src/main.rs` lines 297-426). The two `unwrap`s at
line 306 (`file_stem().unwrap().to_str().unwrap()`) are modelled by the
outer `Option`: `none` is a panic, `some` the function's normal result
with its effect trace. -/
def process_video (video_path scenes_dir ffmpeg_path tool_path colmap_path : RPath)
    (tool : Tool) (force : Bool) (env : PvEnv) :
    Option (Except String Unit × List PvEffect) :=
  match (file_stem video_path).bind os_to_str with
  | none => none
  | some video_name =>
    some (process_video_body video_name video_path scenes_dir ffmpeg_path tool_path
      colmap_path tool force env)

/-- Claim C9: `process_video` panics (the two `unwrap`s at line 306)
exactly when the video path has no file stem or the stem is not valid
UTF-8; so under the precondition that every supplied path has a UTF-8 file
stem no panic occurs, and in particular the empty path, any path whose
last component is `..`, and a stem consisting of the invalid byte 0xFF
all panic instead of returning a per-video error. -/
theorem process_video_panic_iff
    (video_path scenes_dir ffmpeg_path tool_path colmap_path : RPath)
    (tool : Tool) (force : Bool) (env : PvEnv) (q : RPath) :
    (process_video video_path scenes_dir ffmpeg_path tool_path colmap_path tool force env = none
      ↔ (file_stem video_path).bind os_to_str = none)
    ∧ file_stem ([] : RPath) = none
    ∧ file_stem (q ++ [strBytes ".."]) = none
    ∧ os_to_str [255] = none := by
  refine ⟨?_, rfl, ?_, rfl⟩
  · unfold process_video
    cases (file_stem video_path).bind os_to_str <;> simp
  · simp [file_stem, file_name, List.getLast?_concat]

/-- Claim C6: a video whose scene directory already exists, processed with
forceOverwrite=false, is a no-op: the per-video result is success and the
effect trace is empty (no subprocess invoked, directory untouched). -/
theorem process_video_skip_existing
    (video_path scenes_dir ffmpeg_path tool_path colmap_path : RPath)
    (tool : Tool) (env : PvEnv) (n : OsStr)
    (hstem : (file_stem video_path).bind os_to_str = some n)
    (hex : env.sceneDirExists = true) :
    process_video video_path scenes_dir ffmpeg_path tool_path colmap_path tool false env
      = some (.ok (), []) := by
  unfold process_video
  rw [hstem]
  simp [process_video_body, hex]

/-- Witness for `process_video_skip_existing`: a concrete video `clip.mp4`
with an existing scene directory is skipped with success and no effects. -/
theorem process_video_skip_existing_witness :
    (file_stem [strBytes "clip.mp4"]).bind os_to_str = some (strBytes "clip") ∧
    (⟨true, .ok (), .ok (), .ok (), [], 1, false⟩ : PvEnv).sceneDirExists = true ∧
    process_video [strBytes "clip.mp4"] [strBytes "scenes"] [strBytes "ffmpeg.exe"]
      [strBytes "glomap.exe"] [strBytes "colmap.exe"] Tool.glomap false
      ⟨true, .ok (), .ok (), .ok (), [], 1, false⟩ = some (.ok (), []) :=
  ⟨rfl, rfl,
    process_video_skip_existing [strBytes "clip.mp4"] [strBytes "scenes"]
      [strBytes "ffmpeg.exe"] [strBytes "glomap.exe"] [strBytes "colmap.exe"] Tool.glomap
      ⟨true, .ok (), .ok (), .ok (), [], 1, false⟩ (strBytes "clip") rfl rfl⟩

/-- The subprocess invocations in a `process_video` trace whose first
argument is the given subcommand literal. -/
def invocations_of (sub : String) (tr : List PvEffect) : List Cmd :=
  tr.filterMap (fun e => match e with
    | .runCmd c => if c.args.head? = some (.lit sub) then some c else none
    | _ => none)

/-- Claim C3 (amended): the sequential-matcher invocation of the
feature-matching step is identical for both reconstruction-tool variants,
and both supply the explicit frame-overlap window argument
`--SequentialMatching.overlap 15`; neither variant relies on tool
defaults there. -/
theorem process_video_matcher_overlap (video_name : OsStr)
    (video_path scenes_dir ffmpeg_path tool_path colmap_path : RPath)
    (tool : Tool) (env : PvEnv)
    (hex : env.sceneDirExists = false)
    (hmk1 : env.mkImagesRes = .ok ()) (hmk2 : env.mkSparseRes = .ok ())
    (hok : ∀ i, cmdRes env i = .ok ()) :
    invocations_of "sequential_matcher"
        (process_video_body video_name video_path scenes_dir ffmpeg_path tool_path colmap_path
          tool false env).2
      = [⟨colmap_path, [.lit "sequential_matcher", .lit "--database_path",
          .path ((scenes_dir ++ [video_name]) ++ [strBytes "database.db"]),
          .lit "--SequentialMatching.overlap", .lit "15"]⟩] := by
  simp only [process_video_body, hex, hmk1, hmk2, hok]
  cases env.modelExists <;> cases tool <;> simp [invocations_of]

/-- Counterexample to claim C3 as stated: at a concrete run, the
sequential-matcher invocations of BOTH variants carry the explicit overlap
argument, so it is false that exactly one variant supplies it while the
other omits it. -/
theorem process_video_matcher_variant_cex :
    ¬ (((∃ cmd ∈ invocations_of "sequential_matcher"
            (process_video_body (strBytes "clip") [strBytes "clip.mp4"] [strBytes "scenes"]
              [strBytes "ffmpeg"] [strBytes "colmap"] [strBytes "colmap"] Tool.colmap false
              ⟨false, .ok (), .ok (), .ok (), [], 4, true⟩).2,
          Arg.lit "--SequentialMatching.overlap" ∈ cmd.args) ∧
        ¬ (∃ cmd ∈ invocations_of "sequential_matcher"
            (process_video_body (strBytes "clip") [strBytes "clip.mp4"] [strBytes "scenes"]
              [strBytes "ffmpeg"] [strBytes "glomap"] [strBytes "colmap"] Tool.glomap false
              ⟨false, .ok (), .ok (), .ok (), [], 4, true⟩).2,
          Arg.lit "--SequentialMatching.overlap" ∈ cmd.args)) ∨
      ((¬ ∃ cmd ∈ invocations_of "sequential_matcher"
            (process_video_body (strBytes "clip") [strBytes "clip.mp4"] [strBytes "scenes"]
              [strBytes "ffmpeg"] [strBytes "colmap"] [strBytes "colmap"] Tool.colmap false
              ⟨false, .ok (), .ok (), .ok (), [], 4, true⟩).2,
          Arg.lit "--SequentialMatching.overlap" ∈ cmd.args) ∧
        (∃ cmd ∈ invocations_of "sequential_matcher"
            (process_video_body (strBytes "clip") [strBytes "clip.mp4"] [strBytes "scenes"]
              [strBytes "ffmpeg"] [strBytes "glomap"] [strBytes "colmap"] Tool.glomap false
              ⟨false, .ok (), .ok (), .ok (), [], 4, true⟩).2,
          Arg.lit "--SequentialMatching.overlap" ∈ cmd.args))) := by
  decide

/-- Witness for `process_video_matcher_overlap`: a concrete run under the
Colmap variant whose sequential-matcher invocation carries the overlap
argument. -/
theorem process_video_matcher_overlap_witness :
    invocations_of "sequential_matcher"
        (process_video_body (strBytes "clip") [strBytes "clip.mp4"] [strBytes "scenes"]
          [strBytes "ffmpeg"] [strBytes "colmap"] [strBytes "cm"] Tool.colmap false
          ⟨false, .ok (), .ok (), .ok (), [], 4, true⟩).2
      = [⟨[strBytes "cm"], [.lit "sequential_matcher", .lit "--database_path",
          .path (([strBytes "scenes"] ++ [strBytes "clip"]) ++ [strBytes "database.db"]),
          .lit "--SequentialMatching.overlap", .lit "15"]⟩] :=
  process_video_matcher_overlap (strBytes "clip") [strBytes "clip.mp4"] [strBytes "scenes"]
    [strBytes "ffmpeg"] [strBytes "colmap"] [strBytes "cm"] Tool.colmap
    ⟨false, .ok (), .ok (), .ok (), [], 4, true⟩ rfl rfl rfl (fun i => by cases i <;> rfl)

/-- Claim C8: when a fresh job's steps all succeed, the text-export
(model_converter) invocations happen exactly when the mapper produced a
model at the fixed `sparse/0` sub-path: none when it is absent; under the
Glomap variant exactly one extra self-to-self conversion pass (input path
equal to output path, both `sparse/0`) before the final export into the
sparse directory; under the Colmap variant only the single final
conversion. -/
theorem process_video_export_conditional (video_name : OsStr)
    (video_path scenes_dir ffmpeg_path tool_path colmap_path : RPath)
    (tool : Tool) (env : PvEnv)
    (hex : env.sceneDirExists = false)
    (hmk1 : env.mkImagesRes = .ok ()) (hmk2 : env.mkSparseRes = .ok ())
    (hok : ∀ i, cmdRes env i = .ok ()) :
    invocations_of "model_converter"
        (process_video_body video_name video_path scenes_dir ffmpeg_path tool_path colmap_path
          tool false env).2
      = (if env.modelExists then
          match tool with
          | .glomap =>
            [⟨colmap_path, [.lit "model_converter", .lit "--input_path",
              .path (((scenes_dir ++ [video_name]) ++ [strBytes "sparse"]) ++ [strBytes "0"]),
              .lit "--output_path",
              .path (((scenes_dir ++ [video_name]) ++ [strBytes "sparse"]) ++ [strBytes "0"]),
              .lit "--output_type", .lit "TXT"]⟩,
             ⟨colmap_path, [.lit "model_converter", .lit "--input_path",
              .path (((scenes_dir ++ [video_name]) ++ [strBytes "sparse"]) ++ [strBytes "0"]),
              .lit "--output_path",
              .path ((scenes_dir ++ [video_name]) ++ [strBytes "sparse"]),
              .lit "--output_type", .lit "TXT"]⟩]
          | .colmap =>
            [⟨colmap_path, [.lit "model_converter", .lit "--input_path",
              .path (((scenes_dir ++ [video_name]) ++ [strBytes "sparse"]) ++ [strBytes "0"]),
              .lit "--output_path",
              .path ((scenes_dir ++ [video_name]) ++ [strBytes "sparse"]),
              .lit "--output_type", .lit "TXT"]⟩]
         else []) := by
  simp only [process_video_body, hex, hmk1, hmk2, hok]
  cases env.modelExists <;> cases tool <;> simp [invocations_of]

/-- Witness for `process_video_export_conditional`: a concrete Glomap run
with the model present performs the self-to-self pass then the final
export. -/
theorem process_video_export_conditional_witness :
    invocations_of "model_converter"
        (process_video_body (strBytes "clip") [strBytes "clip.mp4"] [strBytes "scenes"]
          [strBytes "ffmpeg"] [strBytes "glomap"] [strBytes "cm"] Tool.glomap false
          ⟨false, .ok (), .ok (), .ok (), [], 4, true⟩).2
      = (if (⟨false, .ok (), .ok (), .ok (), [], 4, true⟩ : PvEnv).modelExists then
          match Tool.glomap with
          | .glomap =>
            [⟨[strBytes "cm"], [.lit "model_converter", .lit "--input_path",
              .path ((([strBytes "scenes"] ++ [strBytes "clip"]) ++ [strBytes "sparse"]) ++ [strBytes "0"]),
              .lit "--output_path",
              .path ((([strBytes "scenes"] ++ [strBytes "clip"]) ++ [strBytes "sparse"]) ++ [strBytes "0"]),
              .lit "--output_type", .lit "TXT"]⟩,
             ⟨[strBytes "cm"], [.lit "model_converter", .lit "--input_path",
              .path ((([strBytes "scenes"] ++ [strBytes "clip"]) ++ [strBytes "sparse"]) ++ [strBytes "0"]),
              .lit "--output_path",
              .path (([strBytes "scenes"] ++ [strBytes "clip"]) ++ [strBytes "sparse"]),
              .lit "--output_type", .lit "TXT"]⟩]
          | .colmap =>
            [⟨[strBytes "cm"], [.lit "model_converter", .lit "--input_path",
              .path ((([strBytes "scenes"] ++ [strBytes "clip"]) ++ [strBytes "sparse"]) ++ [strBytes "0"]),
              .lit "--output_path",
              .path (([strBytes "scenes"] ++ [strBytes "clip"]) ++ [strBytes "sparse"]),
              .lit "--output_type", .lit "TXT"]⟩]
         else []) :=
  process_video_export_conditional (strBytes "clip") [strBytes "clip.mp4"] [strBytes "scenes"]
    [strBytes "ffmpeg"] [strBytes "glomap"] [strBytes "cm"] Tool.glomap
    ⟨false, .ok (), .ok (), .ok (), [], 4, true⟩ rfl rfl rfl (fun i => by cases i <;> rfl)

/-- One component of a zip entry's declared name (the component cases of
Rust `Path::components()` as inspected by the zip crate's
`enclosed_name`). -/
inductive ZComp
  | normal (s : OsStr)
  | parentDir
  | curDir
  | rootDir
  deriving DecidableEq, Repr

/-- One archive entry: its declared name as components, and whether the
raw name ends with `/` (a directory entry). -/
structure ZEntry where
  name : List ZComp
  isDir : Bool
  deriving DecidableEq, Repr

/-- Depth tracking of the zip crate's `enclosed_name`: walk the
components, counting directory depth; fail on a root/prefix component or
when a `..` would step below the start. -/
def depthTrack : Nat → List ZComp → Option Nat
  | d, [] => some d
  | _, .rootDir :: _ => none
  | d, .curDir :: cs => depthTrack d cs
  | d, .parentDir :: cs => if d = 0 then none else depthTrack (d - 1) cs
  | d, .normal _ :: cs => depthTrack (d + 1) cs

/-- The zip crate's `ZipFile::enclosed_name` (used at `src/main.rs` line
123): reject names containing a NUL byte, an absolute/prefixed component,
or a `..` traversal that escapes; otherwise return the name unchanged. -/
def enclosed_name (cs : List ZComp) : Option (List ZComp) :=
  if cs.any (fun c => match c with | .normal s => 0 ∈ s | _ => false) then none
  else if (depthTrack 0 cs).isSome then some cs else none

/-- OS-level resolution of a component sequence against a base directory:
`..` pops one component, `.` is skipped, a rooted component escapes the
base entirely (`none`). -/
def resolveComp : RPath → List ZComp → Option RPath
  | p, [] => some p
  | _, .rootDir :: _ => none
  | p, .curDir :: cs => resolveComp p cs
  | p, .parentDir :: cs => if p = [] then none else resolveComp p.dropLast cs
  | p, .normal s :: cs => resolveComp (p ++ [s]) cs

/-- All prefixes of a path, itself included (the directories
`fs::create_dir_all` guarantees to exist afterwards). -/
def ancestors (p : RPath) : List RPath :=
  (List.range (p.length + 1)).map (fun i => p.take i)

/-- Filesystem-level side effects of installation. -/
inductive FsEffect
  /-- `download_file`: stream the asset body into the file at `p`. -/
  | download (p : RPath)
  /-- `fs::create_dir_all(p)`. -/
  | createDirAll (p : RPath)
  /-- `File::create(p)` + `io::copy`: write an extracted file. -/
  | writeFile (p : RPath)
  /-- `fs::remove_file(p)`. -/
  | removeFile (p : RPath)
  deriving DecidableEq, Repr

/-- The path an installation effect touches. -/
def fs_effect_path : FsEffect → RPath
  | .download p => p
  | .createDirAll p => p
  | .writeFile p => p
  | .removeFile p => p

/-- One iteration of the extraction loop of `unzip_file` (`src/main.rs`
lines 121-139), threading the effect trace and the set of existing paths:
entries without an enclosed name are skipped (`continue`); a directory
entry is created with `create_dir_all`; a file entry first gets its parent
directory created when absent, then is written. Paths are recorded at
their OS-resolved location under `dest`. -/
def unzip_step (dest : RPath) (st : List FsEffect × List RPath) (e : ZEntry) :
    List FsEffect × List RPath :=
  match enclosed_name e.name with
  | none => st
  | some cs =>
    match resolveComp dest cs with
    | none => st
    | some outpath =>
      if e.isDir then
        (st.1 ++ [.createDirAll outpath], st.2 ++ ancestors outpath)
      else
        if outpath.dropLast ∈ st.2 then
          (st.1 ++ [.writeFile outpath], st.2 ++ [outpath])
        else
          (st.1 ++ [.createDirAll outpath.dropLast, .writeFile outpath],
           (st.2 ++ ancestors outpath.dropLast) ++ [outpath])

/-- `unzip_file` (`src/main.rs` lines 117-141) over the entry list of the
opened archive, started on the pre-extraction filesystem `fs0`. -/
def unzip_file (entries : List ZEntry) (dest : RPath) (fs0 : List RPath) :
    List FsEffect × List RPath :=
  entries.foldl (unzip_step dest) ([], fs0)

/-- A GitHub release asset (`struct Asset` in `src/main.rs`). -/
structure Asset where
  name : String
  browser_download_url : String
  deriving DecidableEq, Repr

/-- Substring test (Rust `str::contains`). -/
def str_contains_sub (hay needle : String) : Bool :=
  hay.data.tails.any (fun t => needle.data.isPrefixOf t)

/-- Suffix test (Rust `str::ends_with`). -/
def str_ends_with (hay needle : String) : Bool :=
  needle.data.isSuffixOf hay.data

/-- Oracle environment for one `prompt_and_download_tool` call. -/
structure PdEnv where
  /-- Result of `get_latest_release`: tag name and asset list. -/
  releaseRes : Except String (String × List Asset)
  /-- Parse results of the successive interactive input lines. -/
  inputs : List (Option Nat)
  /-- Outcome of `download_file`. -/
  downloadRes : Except String Unit
  /-- Whether `File::open` + `ZipArchive::new` succeed on the archive. -/
  zipOpenOk : Bool
  /-- The archive's entries, in index order. -/
  entries : List ZEntry
  /-- Existing paths when extraction starts. -/
  fs : List RPath

/-- `prompt_and_download_tool` (`src/main.rs` lines 153-212): fetch the
latest release, filter to Windows `.zip` assets, block for a valid 1-based
choice (the outer `none` models the loop never receiving one), download
the chosen asset next to the install dir, unzip it there, delete the
archive, and finally look the executable up. -/
def prompt_and_download_tool (tool_name : String) (dest_dir : RPath) (penv : PdEnv) :
    Option (Except String RPath × List FsEffect) :=
  match penv.releaseRes with
  | .error e => some (.error e, [])
  | .ok (_tag, assets) =>
    let downloadable_assets := assets.filter (fun a =>
      str_contains_sub a.name "win" && str_ends_with a.name ".zip")
    if downloadable_assets.isEmpty then
      some (.error ("No suitable Windows .zip assets found in the latest release. Please install "
        ++ tool_name ++ " manually."), [])
    else
      match penv.inputs.findSome? (fun o => o.bind (fun n =>
          if 0 < n ∧ n ≤ downloadable_assets.length then some (n - 1) else none)) with
      | none => none
      | some choice =>
        let asset := downloadable_assets.getD choice ⟨"", ""⟩
        let zip_path := dest_dir ++ [strBytes asset.name]
        match penv.downloadRes with
        | .error e => some (.error e, [.download zip_path])
        | .ok _ =>
          if penv.zipOpenOk then
            let ex := unzip_file penv.entries dest_dir penv.fs
            let effs := [FsEffect.download zip_path] ++ ex.1 ++ [.removeFile zip_path]
            match find_executable ex.2 dest_dir tool_name with
            | some p => some (.ok p, effs)
            | none => some (.error ("Failed to find " ++ tool_name
                ++ " executable after installation."), effs)
          else
            some (.error "invalid Zip archive", [.download zip_path])

theorem depthTrack_append (xs ys : List ZComp) :
    ∀ d, depthTrack d (xs ++ ys) = (depthTrack d xs).bind (fun m => depthTrack m ys) := by
  induction xs with
  | nil => intro d; simp [depthTrack]
  | cons c cs ih =>
    intro d
    cases c with
    | rootDir => simp [depthTrack]
    | curDir => simp [depthTrack, ih]
    | parentDir => by_cases hd : d = 0 <;> simp [depthTrack, hd, ih]
    | normal s => simp [depthTrack, ih]

theorem resolveComp_extends (cs : List ZComp) :
    ∀ (d d' : Nat) (stack : List OsStr) (base : RPath),
      stack.length = d → depthTrack d cs = some d' →
      ∃ stack', resolveComp (base ++ stack) cs = some (base ++ stack')
        ∧ stack'.length = d' := by
  induction cs with
  | nil =>
    intro d d' stack base hlen hdep
    simp [depthTrack] at hdep
    exact ⟨stack, by simp [resolveComp], hlen.trans hdep⟩
  | cons c cs ih =>
    intro d d' stack base hlen hdep
    cases c with
    | rootDir => simp [depthTrack] at hdep
    | curDir =>
      simp only [depthTrack] at hdep
      simpa [resolveComp] using ih d d' stack base hlen hdep
    | parentDir =>
      simp only [depthTrack] at hdep
      by_cases hd0 : d = 0
      · simp [hd0] at hdep
      · rw [if_neg hd0] at hdep
        have hstack : stack ≠ [] := by
          intro hnil
          rw [hnil] at hlen
          exact hd0 hlen.symm
        have hne : ¬ (base ++ stack = []) := by simp [hstack]
        have hdrop : (base ++ stack).dropLast = base ++ stack.dropLast :=
          List.dropLast_append_of_ne_nil base hstack
        have hlen2 : stack.dropLast.length = d - 1 := by
          rw [List.length_dropLast, hlen]
        obtain ⟨stack', hres, hlen'⟩ := ih (d - 1) d' stack.dropLast base hlen2 hdep
        refine ⟨stack', ?_, hlen'⟩
        simp only [resolveComp, if_neg hne, hdrop]
        exact hres
    | normal s =>
      simp only [depthTrack] at hdep
      have hlen2 : (stack ++ [s]).length = d + 1 := by simp [hlen]
      obtain ⟨stack', hres, hlen'⟩ := ih (d + 1) d' (stack ++ [s]) base hlen2 hdep
      refine ⟨stack', ?_, hlen'⟩
      simp only [resolveComp]
      simpa [List.append_assoc] using hres

theorem resolveComp_of_depth (cs : List ZComp) (dest : RPath) (d' : Nat)
    (h : depthTrack 0 cs = some d') :
    ∃ s, resolveComp dest cs = some (dest ++ s) ∧ s.length = d' := by
  obtain ⟨s, hres, hlen⟩ := resolveComp_extends cs 0 d' [] dest rfl h
  exact ⟨s, by simpa using hres, hlen⟩

theorem enclosed_name_depth (cs cs' : List ZComp) (h : enclosed_name cs = some cs') :
    cs' = cs ∧ ∃ d', depthTrack 0 cs = some d' := by
  unfold enclosed_name at h
  split at h
  · exact absurd h (by simp)
  · split at h
    · next hs =>
      exact ⟨(Option.some.inj h).symm, Option.isSome_iff_exists.mp hs⟩
    · exact absurd h (by simp)

theorem self_mem_ancestors (p : RPath) : p ∈ ancestors p := by
  simp only [ancestors, List.mem_map]
  exact ⟨p.length, by simp, List.take_length p⟩

theorem unzip_step_inv (dest : RPath) (st : List FsEffect × List RPath) (e : ZEntry)
    (hwf : e.isDir = false → ∃ cs0 s, e.name = cs0 ++ [ZComp.normal s])
    (h1 : ∀ eff ∈ st.1, ∃ s, fs_effect_path eff = dest ++ s)
    (h2 : ∀ q, FsEffect.writeFile q ∈ st.1 → q.dropLast ∈ st.2) :
    (∀ eff ∈ (unzip_step dest st e).1, ∃ s, fs_effect_path eff = dest ++ s)
    ∧ (∀ q, FsEffect.writeFile q ∈ (unzip_step dest st e).1 →
        q.dropLast ∈ (unzip_step dest st e).2) := by
  unfold unzip_step
  rcases henc : enclosed_name e.name with _ | cs
  · exact ⟨h1, h2⟩
  · obtain ⟨hcs, d', hdep⟩ := enclosed_name_depth e.name cs henc
    subst hcs
    obtain ⟨s0, hres, hlen0⟩ := resolveComp_of_depth e.name dest d' hdep
    simp only [hres]
    cases hdir : e.isDir with
    | true =>
      simp only [if_true]
      constructor
      · intro eff heff
        rcases List.mem_append.mp heff with hold | hnew
        · exact h1 eff hold
        · simp at hnew
          subst hnew
          exact ⟨s0, rfl⟩
      · intro q hq
        rcases List.mem_append.mp hq with hold | hnew
        · exact List.mem_append_left _ (h2 q hold)
        · simp at hnew
    | false =>
      -- a file entry: its enclosed name ends in a normal component, so the
      -- resolved path extends `dest` by at least that final component
      obtain ⟨cs0, s, hname⟩ := hwf hdir
      have hs0ne : s0 ≠ [] := by
        intro hnil
        rw [hnil] at hlen0
        simp at hlen0
        have hsplit : depthTrack 0 e.name
            = (depthTrack 0 cs0).bind (fun m => depthTrack m [ZComp.normal s]) := by
          rw [hname, depthTrack_append]
        rw [hsplit] at hdep
        rcases hdt : depthTrack 0 cs0 with _ | m
        · rw [hdt] at hdep; simp at hdep
        · rw [hdt] at hdep
          simp [depthTrack] at hdep
          omega
      have hdrop : (dest ++ s0).dropLast = dest ++ s0.dropLast :=
        List.dropLast_append_of_ne_nil dest hs0ne
      simp only [if_false, Bool.false_eq_true]
      by_cases hparent : (dest ++ s0).dropLast ∈ st.2
      · rw [if_pos hparent]
        constructor
        · intro eff heff
          rcases List.mem_append.mp heff with hold | hnew
          · exact h1 eff hold
          · simp at hnew
            subst hnew
            exact ⟨s0, rfl⟩
        · intro q hq
          rcases List.mem_append.mp hq with hold | hnew
          · exact List.mem_append_left _ (h2 q hold)
          · simp at hnew
            subst hnew
            exact List.mem_append_left _ hparent
      · rw [if_neg hparent]
        constructor
        · intro eff heff
          rcases List.mem_append.mp heff with hold | hnew
          · exact h1 eff hold
          · simp at hnew
            rcases hnew with hnew | hnew
            · subst hnew
              exact ⟨s0.dropLast, by simp [fs_effect_path, hdrop]⟩
            · subst hnew
              exact ⟨s0, rfl⟩
        · intro q hq
          rcases List.mem_append.mp hq with hold | hnew
          · exact List.mem_append_left _ (List.mem_append_left _ (h2 q hold))
          · simp at hnew
            subst hnew
            exact List.mem_append_left _
              (List.mem_append_right _ (self_mem_ancestors _))

theorem unzip_fold_inv (dest : RPath) (entries : List ZEntry) :
    ∀ st : List FsEffect × List RPath,
      (∀ e ∈ entries, e.isDir = false → ∃ cs0 s, e.name = cs0 ++ [ZComp.normal s]) →
      (∀ eff ∈ st.1, ∃ s, fs_effect_path eff = dest ++ s) →
      (∀ q, FsEffect.writeFile q ∈ st.1 → q.dropLast ∈ st.2) →
      (∀ eff ∈ (entries.foldl (unzip_step dest) st).1, ∃ s, fs_effect_path eff = dest ++ s)
      ∧ (∀ q, FsEffect.writeFile q ∈ (entries.foldl (unzip_step dest) st).1 →
          q.dropLast ∈ (entries.foldl (unzip_step dest) st).2) := by
  induction entries with
  | nil => intro st _ h1 h2; exact ⟨h1, h2⟩
  | cons e es ih =>
    intro st hwf h1 h2
    have hstep := unzip_step_inv dest st e (hwf e (by simp)) h1 h2
    exact ih (unzip_step dest st e) (fun x hx hd => hwf x (by simp [hx]) hd) hstep.1 hstep.2

/-- Claim C7: every filesystem effect of archive extraction is at a path
under the destination directory (entries whose names are absolute or
escape via `..` are rejected and produce no effect at all); the parent
directory of every written file exists afterwards, created as needed; and
in `prompt_and_download_tool`, whenever the download and the archive open
succeed, either nothing was downloaded at all or the downloaded archive
file is deleted after all extraction effects. -/
theorem unzip_extraction_safe (entries : List ZEntry) (dest : RPath) (fs0 : List RPath)
    (tool_name : String) (dest_dir : RPath) (penv : PdEnv)
    (hwf : ∀ e ∈ entries, e.isDir = false → ∃ cs0 s, e.name = cs0 ++ [ZComp.normal s]) :
    ((∀ eff ∈ (unzip_file entries dest fs0).1, ∃ s, fs_effect_path eff = dest ++ s)
      ∧ (∀ q, FsEffect.writeFile q ∈ (unzip_file entries dest fs0).1 →
          q.dropLast ∈ (unzip_file entries dest fs0).2))
    ∧ (penv.downloadRes = .ok () → penv.zipOpenOk = true →
        ∀ r effs, prompt_and_download_tool tool_name dest_dir penv = some (r, effs) →
          effs = [] ∨ ∃ zip_name,
            effs = [FsEffect.download (dest_dir ++ [zip_name])]
              ++ (unzip_file penv.entries dest_dir penv.fs).1
              ++ [FsEffect.removeFile (dest_dir ++ [zip_name])]) := by
  constructor
  · exact unzip_fold_inv dest entries ([], fs0) hwf (by simp) (by simp)
  · intro hdl hzip r effs hrun
    rcases hrel : penv.releaseRes with e | ⟨tag, assets⟩ <;>
      simp only [prompt_and_download_tool, hrel] at hrun
    · simp at hrun
      exact Or.inl hrun.2
    · by_cases hempt : (assets.filter (fun a =>
          str_contains_sub a.name "win" && str_ends_with a.name ".zip")).isEmpty = true
      · rw [if_pos hempt] at hrun
        simp at hrun
        exact Or.inl hrun.2
      · rw [if_neg hempt] at hrun
        rcases hch : (penv.inputs.findSome? (fun o => o.bind (fun n =>
            if 0 < n ∧ n ≤ (assets.filter (fun a =>
              str_contains_sub a.name "win" && str_ends_with a.name ".zip")).length
            then some (n - 1) else none))) with _ | choice <;> rw [hch] at hrun
        · simp at hrun
        · rw [hdl, hzip] at hrun
          rcases hfe : find_executable (unzip_file penv.entries dest_dir penv.fs).2 dest_dir
              tool_name with _ | p <;> rw [hfe] at hrun <;> simp at hrun <;>
            refine Or.inr ⟨strBytes ((assets.filter (fun a =>
              str_contains_sub a.name "win" && str_ends_with a.name ".zip")).getD choice
                ⟨"", ""⟩).name, ?_⟩ <;>
            simp <;> exact hrun.2.symm

/-- Witness for `unzip_extraction_safe`: a one-entry archive installing
`colmap.exe` is extracted under the install directory (parent created
first) and the downloaded archive is deleted after extraction. -/
theorem unzip_extraction_safe_witness :
    prompt_and_download_tool "colmap" [strBytes "inst"]
        ⟨.ok ("v1", [⟨"colmap-win.zip", "u"⟩]), [some 1], .ok (), true,
         [⟨[ZComp.normal (strBytes "colmap.exe")], false⟩], []⟩
      = some (.ok [strBytes "inst", strBytes "colmap.exe"],
          [FsEffect.download [strBytes "inst", strBytes "colmap-win.zip"],
           FsEffect.createDirAll [strBytes "inst"],
           FsEffect.writeFile [strBytes "inst", strBytes "colmap.exe"],
           FsEffect.removeFile [strBytes "inst", strBytes "colmap-win.zip"]])
    ∧ ([FsEffect.download [strBytes "inst", strBytes "colmap-win.zip"],
        FsEffect.createDirAll [strBytes "inst"],
        FsEffect.writeFile [strBytes "inst", strBytes "colmap.exe"],
        FsEffect.removeFile [strBytes "inst", strBytes "colmap-win.zip"]] = [] ∨
       ∃ zip_name,
         [FsEffect.download [strBytes "inst", strBytes "colmap-win.zip"],
          FsEffect.createDirAll [strBytes "inst"],
          FsEffect.writeFile [strBytes "inst", strBytes "colmap.exe"],
          FsEffect.removeFile [strBytes "inst", strBytes "colmap-win.zip"]]
           = [FsEffect.download ([strBytes "inst"] ++ [zip_name])]
              ++ (unzip_file (⟨.ok ("v1", [⟨"colmap-win.zip", "u"⟩]), [some 1], .ok (), true,
                    [⟨[ZComp.normal (strBytes "colmap.exe")], false⟩], []⟩ : PdEnv).entries
                  [strBytes "inst"]
                  (⟨.ok ("v1", [⟨"colmap-win.zip", "u"⟩]), [some 1], .ok (), true,
                    [⟨[ZComp.normal (strBytes "colmap.exe")], false⟩], []⟩ : PdEnv).fs).1
              ++ [FsEffect.removeFile ([strBytes "inst"] ++ [zip_name])]) :=
  ⟨rfl,
    (unzip_extraction_safe [⟨[ZComp.normal (strBytes "colmap.exe")], false⟩] [strBytes "inst"] []
        "colmap" [strBytes "inst"]
        ⟨.ok ("v1", [⟨"colmap-win.zip", "u"⟩]), [some 1], .ok (), true,
         [⟨[ZComp.normal (strBytes "colmap.exe")], false⟩], []⟩
        (by
          intro e he hd
          simp at he
          subst he
          exact ⟨[], strBytes "colmap.exe", rfl⟩)).2
      rfl rfl (.ok [strBytes "inst", strBytes "colmap.exe"])
      [FsEffect.download [strBytes "inst", strBytes "colmap-win.zip"],
       FsEffect.createDirAll [strBytes "inst"],
       FsEffect.writeFile [strBytes "inst", strBytes "colmap.exe"],
       FsEffect.removeFile [strBytes "inst", strBytes "colmap-win.zip"]] rfl⟩

/-- The contribution of one tool to the PATH additions of
`modify_path.rs::run` (the body of the `for tool_name in &tools` loop,
lines 136-161): if the tool's executable is found under its install
directory and the executable's containing directory is not in the
starting PATH value, that directory is appended. Membership is tested
against the starting value `cur` (the code compares each `split(';')`
entry of the original `current_path` with `Path::new`, i.e. exact
componentwise path equality). -/
def tool_dir_add (fs : List RPath) (tools_base_dir : RPath) (cur : List RPath)
    (tool_name : String) : List RPath :=
  match find_executable fs (tools_base_dir ++ [strBytes tool_name]) tool_name with
  | some executable_path =>
    if executable_path.dropLast ∈ cur then [] else [executable_path.dropLast]
  | none => []

/-- Oracle environment for one `modify_path.rs::run` call. The persisted
registry value `Path` is modelled in its `';'`-split form: a list of path
entries (the code splits the string on `';'` for every membership test
and appends entries with a `';'` separator, so for `';'`-free entries the
split form determines the string exactly). -/
structure MpEnv where
  dataLocalDir : Option RPath
  fs : List RPath
  currentPath : List RPath
  deriving Repr

/-- `run` from `src/modify_path.rs` (lines 86-209): unless the tools base
directory is missing (in which case nothing is added), append the
(already absolute) install directory and each found tool executable's
containing directory to the PATH value when not already present in the
*starting* value, and persist the result. Registry access is the
key-value get/set around this logic; the broadcast (lines 178-205) has no
effect on the persisted value. Returns the persisted PATH value. -/
def modify_path_run (install_dir : RPath) (env : MpEnv) :
    Except String (List RPath) :=
  match env.dataLocalDir with
  | none => .error "Failed to get local data directory"
  | some dl =>
    let tools_base_dir := dl ++ [strBytes "polyfjord3d"]
    if tools_base_dir ∉ env.fs then
      .ok env.currentPath
    else
      let cur := env.currentPath
      let adds1 : List RPath := if install_dir ∈ cur then [] else [install_dir]
      let adds2 : List RPath :=
        ["colmap", "glomap", "ffmpeg"].flatMap (tool_dir_add env.fs tools_base_dir cur)
      .ok (cur ++ adds1 ++ adds2)

/-- Counterexample to claim C4 as stated: when the install directory passed
to the PATH publisher is exactly the resolved colmap executable's
containing directory (precisely what `main` passes at line 469) and it is
absent from the starting PATH value, the run appends it twice — the
persisted value holds two occurrences, not one. -/
theorem modify_path_dedup_cex :
    modify_path_run [strBytes "u", strBytes "polyfjord3d", strBytes "colmap"]
        ⟨some [strBytes "u"],
         [[strBytes "u", strBytes "polyfjord3d"],
          [strBytes "u", strBytes "polyfjord3d", strBytes "colmap", strBytes "colmap.exe"]],
         [[strBytes "x"]]⟩
      = .ok [[strBytes "x"],
             [strBytes "u", strBytes "polyfjord3d", strBytes "colmap"],
             [strBytes "u", strBytes "polyfjord3d", strBytes "colmap"]]
    ∧ ¬ ([[strBytes "x"],
          [strBytes "u", strBytes "polyfjord3d", strBytes "colmap"],
          [strBytes "u", strBytes "polyfjord3d", strBytes "colmap"]].count
            [strBytes "u", strBytes "polyfjord3d", strBytes "colmap"] = 1) :=
  ⟨rfl, by decide⟩

theorem tool_dir_add_not_mem (fs : List RPath) (b : RPath) (cur : List RPath) (t : String)
    (x : RPath) (hx : x ∈ tool_dir_add fs b cur t) : x ∉ cur := by
  unfold tool_dir_add at hx
  rcases hf : find_executable fs (b ++ [strBytes t]) t with _ | p <;> rw [hf] at hx
  · exact absurd hx (by simp)
  · replace hx : x ∈ (if p.dropLast ∈ cur then ([] : List RPath) else [p.dropLast]) := hx
    by_cases hp : p.dropLast ∈ cur
    · rw [if_pos hp] at hx
      exact absurd hx (by simp)
    · rw [if_neg hp] at hx
      simp at hx
      subst hx
      exact hp

theorem tool_dir_add_idem (fs : List RPath) (b : RPath) (cur ext : List RPath) (t : String)
    (hsub : cur ⊆ ext) (hadds : ∀ x ∈ tool_dir_add fs b cur t, x ∈ ext) :
    tool_dir_add fs b ext t = [] := by
  unfold tool_dir_add at hadds ⊢
  cases hf : find_executable fs (b ++ [strBytes t]) t with
  | none =>
    rfl
  | some p =>
    rw [hf] at hadds
    replace hadds : ∀ x ∈ (if p.dropLast ∈ cur then ([] : List RPath) else [p.dropLast]),
        x ∈ ext := hadds
    show (if p.dropLast ∈ ext then ([] : List RPath) else [p.dropLast]) = []
    by_cases hp : p.dropLast ∈ cur
    · rw [if_pos (hsub hp)]
    · rw [if_neg hp] at hadds
      exact if_pos (hadds _ (by simp))

/-- Claim C4 (amended): publication never re-adds a directory that is
already present in the starting PATH value (membership decided by exact
path comparison against the starting value), and publication is
idempotent across runs — a second run on the persisted result appends
nothing. Within a single run, however, deduplication fails: when the
install directory coincides with a resolved tool's containing directory
and is absent from the starting value, it is appended twice
(see `modify_path_dedup_cex`). -/
theorem modify_path_idempotent (install_dir : RPath) (env : MpEnv) (res : List RPath)
    (hrun : modify_path_run install_dir env = .ok res) :
    (∀ dir ∈ env.currentPath, res.count dir = env.currentPath.count dir)
    ∧ modify_path_run install_dir ⟨env.dataLocalDir, env.fs, res⟩ = .ok res := by
  rcases hd : env.dataLocalDir with _ | dl <;>
    simp only [modify_path_run, hd] at hrun ⊢
  · exact absurd hrun (by simp)
  · by_cases hbase : (dl ++ [strBytes "polyfjord3d"]) ∉ env.fs
    · rw [if_pos hbase] at hrun ⊢
      simp at hrun
      subst hrun
      exact ⟨fun dir _ => rfl, rfl⟩
    · rw [if_neg hbase] at hrun ⊢
      simp only [Except.ok.injEq] at hrun
      subst hrun
      constructor
      · intro dir hdir
        have h1 : dir ∉ (if install_dir ∈ env.currentPath then ([] : List RPath)
            else [install_dir]) := by
          by_cases hi : install_dir ∈ env.currentPath
          · simp [hi]
          · simp [hi]
            intro heq
            rw [heq] at hdir
            exact hi hdir
        have h2 : dir ∉ ["colmap", "glomap", "ffmpeg"].flatMap
            (tool_dir_add env.fs (dl ++ [strBytes "polyfjord3d"]) env.currentPath) := by
          intro hmem
          obtain ⟨t, _, hx⟩ := List.mem_flatMap.mp hmem
          exact tool_dir_add_not_mem _ _ _ _ _ hx hdir
        rw [List.count_append, List.count_append,
          List.count_eq_zero.mpr h1, List.count_eq_zero.mpr h2]
        simp
      · have hsub : env.currentPath ⊆
            env.currentPath
              ++ (if install_dir ∈ env.currentPath then ([] : List RPath) else [install_dir])
              ++ ["colmap", "glomap", "ffmpeg"].flatMap
                   (tool_dir_add env.fs (dl ++ [strBytes "polyfjord3d"]) env.currentPath) := by
          intro x hx
          exact List.mem_append_left _ (List.mem_append_left _ hx)
        have hinst : install_dir ∈
            env.currentPath
              ++ (if install_dir ∈ env.currentPath then ([] : List RPath) else [install_dir])
              ++ ["colmap", "glomap", "ffmpeg"].flatMap
                   (tool_dir_add env.fs (dl ++ [strBytes "polyfjord3d"]) env.currentPath) := by
          by_cases hi : install_dir ∈ env.currentPath
          · exact hsub hi
          · exact List.mem_append_left _ (List.mem_append_right _ (by simp [hi]))
        have hadds : ∀ t, ∀ x ∈ tool_dir_add env.fs (dl ++ [strBytes "polyfjord3d"])
            env.currentPath t, t ∈ (["colmap", "glomap", "ffmpeg"] : List String) →
            x ∈ env.currentPath
              ++ (if install_dir ∈ env.currentPath then ([] : List RPath) else [install_dir])
              ++ ["colmap", "glomap", "ffmpeg"].flatMap
                   (tool_dir_add env.fs (dl ++ [strBytes "polyfjord3d"]) env.currentPath) := by
          intro t x hx ht
          exact List.mem_append_right _ (List.mem_flatMap.mpr ⟨t, ht, hx⟩)
        rw [if_pos hinst]
        have htools : ["colmap", "glomap", "ffmpeg"].flatMap
            (tool_dir_add env.fs (dl ++ [strBytes "polyfjord3d"])
              (env.currentPath
                ++ (if install_dir ∈ env.currentPath then ([] : List RPath) else [install_dir])
                ++ ["colmap", "glomap", "ffmpeg"].flatMap
                     (tool_dir_add env.fs (dl ++ [strBytes "polyfjord3d"]) env.currentPath)))
            = [] := by
          apply List.flatMap_eq_nil_iff.mpr
          intro t ht
          exact tool_dir_add_idem _ _ _ _ _ hsub (fun x hx => hadds t x hx ht)
        rw [htools]
        simp

/-- Witness for `modify_path_idempotent`: after a concrete publication run
that appended one new directory, entries already present keep a single
occurrence and a repeated run changes nothing. -/
theorem modify_path_idempotent_witness :
    (∀ dir ∈ (⟨some [strBytes "u"], [[strBytes "u", strBytes "polyfjord3d"]],
        [[strBytes "x"]]⟩ : MpEnv).currentPath,
      ([[strBytes "x"], [strBytes "d"]] : List RPath).count dir
        = (⟨some [strBytes "u"], [[strBytes "u", strBytes "polyfjord3d"]],
            [[strBytes "x"]]⟩ : MpEnv).currentPath.count dir)
    ∧ modify_path_run [strBytes "d"]
        ⟨(⟨some [strBytes "u"], [[strBytes "u", strBytes "polyfjord3d"]],
            [[strBytes "x"]]⟩ : MpEnv).dataLocalDir,
         (⟨some [strBytes "u"], [[strBytes "u", strBytes "polyfjord3d"]],
            [[strBytes "x"]]⟩ : MpEnv).fs,
         [[strBytes "x"], [strBytes "d"]]⟩ = .ok [[strBytes "x"], [strBytes "d"]] :=
  modify_path_idempotent [strBytes "d"]
    ⟨some [strBytes "u"], [[strBytes "u", strBytes "polyfjord3d"]], [[strBytes "x"]]⟩
    [[strBytes "x"], [strBytes "d"]] rfl

/-- Rust `Path::parent`: `None` for the empty (root) path, otherwise the
path without its last component. -/
def path_parent (p : RPath) : Option RPath :=
  if p = [] then none else some p.dropLast

/-- Oracle environment for one `main` run: the outcomes of the three
dependency resolutions, of the `modify_polyfjord_path` subprocess, of the
`get_install_dir` call made for the plugin path, the scenes-directory
check/creation, and the per-video `process_video` results (the claims
about the batch loop concern step failures, which `process_video` returns
as `Err`). -/
structure MainEnv where
  ffmpegRes : Except String (RPath × Bool)
  toolRes : Except String (RPath × Bool)
  colmapRes : Except String (RPath × Bool)
  modifyPathRes : Except String Unit
  installDirRes : Except String RPath
  scenesDirExists : Bool
  scenesCreateRes : Except String Unit
  videoRes : List (Except String Unit)
  deriving Repr

/-- `main` (`src/main.rs` lines 428-511). Returns `none` for the
`colmap_path.parent().unwrap()` panic at line 469; otherwise `some` of the
process result (`Ok` exits 0, `Err` non-zero), the number of videos the
batch loop attempted, and the list of per-video errors the loop logged.
For the Colmap variant the companion resolution reuses the selected
tool's path and download flag (the shadowed `did_download`, lines
456-461); `need_to_modify_path` is the disjunction of the fresh-install
flags. The batch loop (lines 489-501) catches each video's error, logs
it, and continues; `main` then returns `Ok(())`. -/
def main_run (tool : Tool) (videos : List RPath) (env : MainEnv) :
    Option (Except String Unit × Nat × List String) :=
  match env.ffmpegRes with
  | .error e => some (.error e, 0, [])
  | .ok (_ffmpeg_path, dd1) =>
  match env.toolRes with
  | .error e => some (.error e, 0, [])
  | .ok (tool_path, dd2) =>
  match (match tool with
         | .glomap => env.colmapRes
         | .colmap => .ok (tool_path, dd2)) with
  | .error e => some (.error e, 0, [])
  | .ok (colmap_path, dd3) =>
  let need_to_modify_path := dd1 || dd2 || dd3
  let go : Option (Except String Unit × Nat × List String) :=
    match env.installDirRes with
    | .error e => some (.error e, 0, [])
    | .ok _ =>
      match (if env.scenesDirExists then .ok () else env.scenesCreateRes) with
      | .error e => some (.error e, 0, [])
      | .ok _ =>
        some (.ok (), videos.length,
          (List.range videos.length).filterMap (fun i =>
            match env.videoRes.getD i (.ok ()) with
            | .error e => some e
            | .ok _ => none))
  if need_to_modify_path then
    match path_parent colmap_path with
    | none => none
    | some _dir =>
      match env.modifyPathRes with
      | .error e => some (.error e, 0, [])
      | .ok _ => go
  else go

/-- Counterexample to claim C1 as stated: a run in which every dependency
resolution succeeds (ffmpeg freshly installed) but the PATH-publication
subprocess `modify_polyfjord_path` (invoked before the batch loop, line
469) fails exits non-zero with zero videos attempted — so a non-zero exit
is not restricted to dependency-resolution failures. -/
theorem main_nonzero_cex :
    main_run Tool.colmap [[strBytes "v.mp4"]]
        ⟨.ok ([strBytes "f"], true), .ok ([strBytes "t", strBytes "bin"], false),
         .ok ([strBytes "c"], false), .error "modify_path failed for modify_path",
         .ok [], true, .ok (), []⟩
      = some (.error "modify_path failed for modify_path", 0, [])
    ∧ (⟨.ok ([strBytes "f"], true), .ok ([strBytes "t", strBytes "bin"], false),
         .ok ([strBytes "c"], false), .error "modify_path failed for modify_path",
         .ok [], true, .ok (), []⟩ : MainEnv).ffmpegRes = .ok ([strBytes "f"], true)
    ∧ (⟨.ok ([strBytes "f"], true), .ok ([strBytes "t", strBytes "bin"], false),
         .ok ([strBytes "c"], false), .error "modify_path failed for modify_path",
         .ok [], true, .ok (), []⟩ : MainEnv).toolRes
        = .ok ([strBytes "t", strBytes "bin"], false) :=
  ⟨rfl, rfl, rfl⟩

theorem main_go_cases (videos : List RPath) (env : MainEnv) (e : String) (n : Nat)
    (l : List String)
    (h : (match env.installDirRes with
          | .error e => some ((.error e : Except String Unit), 0, ([] : List String))
          | .ok _ =>
            match (if env.scenesDirExists then (.ok () : Except String Unit)
                else env.scenesCreateRes) with
            | .error e => some ((.error e : Except String Unit), 0, ([] : List String))
            | .ok _ =>
              some (.ok (), videos.length,
                (List.range videos.length).filterMap (fun i =>
                  match env.videoRes.getD i (.ok ()) with
                  | .error e => some e
                  | .ok _ => none)))
        = some (.error e, n, l)) :
    n = 0 ∧ l = [] ∧
      ((∃ m, env.installDirRes = .error m) ∨ (∃ m, env.scenesCreateRes = .error m)) := by
  rcases hid : env.installDirRes with m | idir <;> rw [hid] at h
  · simp at h
    exact ⟨h.2.1.symm, h.2.2, Or.inl ⟨m, rfl⟩⟩
  · cases hscd : env.scenesDirExists <;> rw [hscd] at h
    · rw [if_neg (by simp)] at h
      rcases hscr : env.scenesCreateRes with m | u <;> rw [hscr] at h
      · simp at h
        exact ⟨h.2.1.symm, h.2.2, Or.inr ⟨m, rfl⟩⟩
      · simp at h
    · rw [if_pos rfl] at h
      simp at h

/-- Claim C1 (amended): when the pre-batch setup succeeds (all dependency
resolutions, the PATH-publication subprocess when needed, the plugin-path
install-directory lookup, and scenes-directory creation), the batch loop
attempts every video, logs the error of each failed video, and the run
exits 0 regardless of per-video failures; conversely a non-zero exit can
only come from one of those pre-batch setup steps failing, with zero
videos attempted. -/
theorem main_batch_isolation (tool : Tool) (videos : List RPath) (env : MainEnv) :
    (∀ fp tp cp : RPath, ∀ d1 d2 d3 : Bool,
      env.ffmpegRes = .ok (fp, d1) →
      env.toolRes = .ok (tp, d2) →
      (match tool with
       | .glomap => env.colmapRes
       | .colmap => .ok (tp, d2)) = .ok (cp, d3) →
      env.modifyPathRes = .ok () →
      cp ≠ [] →
      (∃ idir, env.installDirRes = .ok idir) →
      env.scenesCreateRes = .ok () →
      main_run tool videos env
        = some (.ok (), videos.length,
            (List.range videos.length).filterMap (fun i =>
              match env.videoRes.getD i (.ok ()) with
              | .error e => some e
              | .ok _ => none)))
    ∧ (∀ e n l, main_run tool videos env = some (.error e, n, l) →
        n = 0 ∧ l = [] ∧
          ((∃ m, env.ffmpegRes = .error m) ∨ (∃ m, env.toolRes = .error m) ∨
           (∃ m, env.colmapRes = .error m) ∨ (∃ m, env.modifyPathRes = .error m) ∨
           (∃ m, env.installDirRes = .error m) ∨ (∃ m, env.scenesCreateRes = .error m))) := by
  constructor
  · intro fp tp cp d1 d2 d3 hf ht hc hm hcp hins hsc
    obtain ⟨idir, hins⟩ := hins
    simp only [main_run, hf, ht, hc, hm, hins]
    have hgo :
        (match (if env.scenesDirExists then (.ok () : Except String Unit)
            else env.scenesCreateRes) with
          | .error e => some ((.error e : Except String Unit), 0, ([] : List String))
          | .ok _ =>
            some (.ok (), videos.length,
              (List.range videos.length).filterMap (fun i =>
                match env.videoRes.getD i (.ok ()) with
                | .error e => some e
                | .ok _ => none)))
          = some (.ok (), videos.length,
              (List.range videos.length).filterMap (fun i =>
                match env.videoRes.getD i (.ok ()) with
                | .error e => some e
                | .ok _ => none)) := by
      cases hscd : env.scenesDirExists
      · rw [if_neg (by simp), hsc]
      · rw [if_pos rfl]
    by_cases hneed : (d1 || d2 || d3) = true
    · rw [if_pos hneed]
      simp only [path_parent, if_neg hcp]
      exact hgo
    · rw [if_neg hneed]
      exact hgo
  · intro e n l h
    have hfin : n = 0 ∧ l = [] ∧
        ((∃ m, env.installDirRes = .error m) ∨ (∃ m, env.scenesCreateRes = .error m)) →
        n = 0 ∧ l = [] ∧
        ((∃ m, env.ffmpegRes = .error m) ∨ (∃ m, env.toolRes = .error m) ∨
         (∃ m, env.colmapRes = .error m) ∨ (∃ m, env.modifyPathRes = .error m) ∨
         (∃ m, env.installDirRes = .error m) ∨ (∃ m, env.scenesCreateRes = .error m)) := by
      rintro ⟨hn, hl, hC | hC⟩
      · exact ⟨hn, hl, Or.inr (Or.inr (Or.inr (Or.inr (Or.inl hC))))⟩
      · exact ⟨hn, hl, Or.inr (Or.inr (Or.inr (Or.inr (Or.inr hC))))⟩
    simp only [main_run] at h
    split at h
    next m heqf =>
      simp at h
      exact ⟨h.2.1.symm, h.2.2, Or.inl ⟨m, heqf⟩⟩
    next fp d1 heqf =>
      split at h
      next m heqt =>
        simp at h
        exact ⟨h.2.1.symm, h.2.2, Or.inr (Or.inl ⟨m, heqt⟩)⟩
      next tp d2 heqt =>
        split at h
        next m heqc =>
          have hcm : env.colmapRes = .error m := by
            cases tool
            · simp at heqc
            · exact heqc
          simp at h
          exact ⟨h.2.1.symm, h.2.2, Or.inr (Or.inr (Or.inl ⟨m, hcm⟩))⟩
        next cp d3 heqc =>
          split at h
          · split at h
            next heqp =>
              simp at h
            next dir heqp =>
              split at h
              next m heqm =>
                simp at h
                exact ⟨h.2.1.symm, h.2.2,
                  Or.inr (Or.inr (Or.inr (Or.inl ⟨m, heqm⟩)))⟩
              next u heqm =>
                exact hfin (main_go_cases videos env e n l h)
          · exact hfin (main_go_cases videos env e n l h)

/-- Witness for `main_batch_isolation`: a concrete two-video batch whose
first video fails is still fully attempted, the error is logged, and the
run exits 0. -/
theorem main_batch_isolation_witness :
    main_run Tool.colmap [[strBytes "a.mp4"], [strBytes "b.mp4"]]
        ⟨.ok ([strBytes "f"], false), .ok ([strBytes "t", strBytes "bin"], false),
         .ok ([strBytes "c"], false), .ok (), .ok [], true, .ok (),
         [.error "boom", .ok ()]⟩
      = some (.ok (), 2, ["boom"]) := by
  have h := (main_batch_isolation Tool.colmap [[strBytes "a.mp4"], [strBytes "b.mp4"]]
      ⟨.ok ([strBytes "f"], false), .ok ([strBytes "t", strBytes "bin"], false),
       .ok ([strBytes "c"], false), .ok (), .ok [], true, .ok (),
       [.error "boom", .ok ()]⟩).1
    [strBytes "f"] [strBytes "t", strBytes "bin"] [strBytes "t", strBytes "bin"] false false false
    rfl rfl rfl rfl (by simp) ⟨[], rfl⟩ rfl
  simpa using h
